import Mathlib

/-!
Verification development for a Telegram file-distribution bot
(`src/Telegram_bot.py`).  The program keeps categories and their files in an
SQLite database (`DatabaseManager`), accumulates uploads per admin in an
in-memory `pending_uploads` map, and routes inline-button interactions by
string-prefix dispatch on the callback data.

The embedding below models the SQLite tables operationally: a table is the
list of its rows in rowid order (which is the order SQLite scans a plain
table), and `AUTOINCREMENT` is a counter that never reuses values.  The
`with sqlite3.connect(...)` blocks commit on normal exit and roll back on an
exception; exceptions from the storage layer are modelled by explicit fault
parameters, and a caught exception yields the rolled-back state together
with the `False` the Python code returns.  Note that the source never issues
`PRAGMA foreign_keys = ON`, so the declared `FOREIGN KEY` on
`files.category_id` is not enforced at runtime; the embedding reproduces
that behaviour.
-/

/-- A row of the `categories` table: `id TEXT PRIMARY KEY, name, created_by,
created_at`. -/
structure CategoryRow where
  id : String
  name : String
  created_by : Int
  created_at : String
deriving DecidableEq

/-- A row of the `files` table: `id INTEGER PRIMARY KEY AUTOINCREMENT`,
`category_id`, `file_id`, `file_name`, `file_size`, `caption`,
`upload_date`. -/
structure FileRow where
  id : Nat
  category_id : String
  file_id : String
  file_name : String
  file_size : Nat
  caption : String
  upload_date : String
deriving DecidableEq

/-- The file-descriptor dict built by `handle_document` before it is written
to the database: `file_id`, `file_name`, `file_size`, `caption`. -/
structure FileInfo where
  file_id : String
  file_name : String
  file_size : Nat
  caption : String
deriving DecidableEq

/-- The database state: both tables plus the `AUTOINCREMENT` counter of the
`files` table (`sqlite_sequence`), which never hands out a value twice.
Rows are listed in rowid order, the order a plain `SELECT` scans them. -/
structure DB where
  categories : List CategoryRow
  files : List FileRow
  next_file_id : Nat
deriving DecidableEq

/-- The freshly created database: empty tables, first `AUTOINCREMENT` value
is 1. -/
def DB.empty : DB := { categories := [], files := [], next_file_id := 1 }

/-- The query `SELECT ... FROM files WHERE category_id = ?` issued by
`get_categories` (and re-issued by `delete_file`): the matching rows in
table-scan (rowid) order. -/
def files_of (db : DB) (cat : String) : List FileRow :=
  db.files.filter (fun f => f.category_id == cat)

/-- One entry of the per-category `files` list that `get_categories` builds
from each row (`file_id`, `file_name`, `file_size`, `caption or ''`). -/
structure FileView where
  file_id : String
  file_name : String
  file_size : Nat
  caption : String
deriving DecidableEq

/-- Projection of a `files` row to the dict `get_categories` returns for it.
The source replaces a NULL caption by `''`; captions are total strings here,
so the projection is direct. -/
def fileView (f : FileRow) : FileView :=
  { file_id := f.file_id, file_name := f.file_name, file_size := f.file_size,
    caption := f.caption }

/-- The per-category dict `get_categories` builds: `name`, `files`,
`created_by`, `created_at`. -/
structure CategoryView where
  name : String
  files : List FileView
  created_by : Int
  created_at : String
deriving DecidableEq

/-- Embeds `DatabaseManager.get_categories`: for every row of `categories`
(in insertion order), pair its id with the view holding its `files` rows in
table-scan order. -/
def get_categories (db : DB) : List (String × CategoryView) :=
  db.categories.map (fun c =>
    (c.id, { name := c.name, files := (files_of db c.id).map fileView,
             created_by := c.created_by, created_at := c.created_at }))

/-- Embeds `DatabaseManager.get_category`: `self.get_categories().get(id)`.
Category ids are primary keys, so the dict has no duplicate keys and a first
match is the match. -/
def get_category (db : DB) (cat : String) : Option CategoryView :=
  ((get_categories db).find? (fun e => e.fst == cat)).map (fun e => e.snd)

/-- Embeds `DatabaseManager.add_category`: `INSERT INTO categories ...`.
A duplicate id violates `id TEXT PRIMARY KEY`, sqlite3 raises
`IntegrityError`, the `with` block rolls back and the bare `except` returns
`False`; any other storage failure (`fault`) takes the same path.  On
success the row is appended and the call returns `True`. -/
def add_category (db : DB) (category_id name : String) (created_by : Int)
    (created_at : String) (fault : Bool) : DB × Bool :=
  if fault then (db, false)
  else if db.categories.any (fun c => c.id == category_id) then (db, false)
  else ({ db with categories :=
            db.categories ++ [{ id := category_id, name := name,
                                created_by := created_by,
                                created_at := created_at }] },
        true)

/-- One `INSERT INTO files ...` with the next `AUTOINCREMENT` id.  No
category-existence check is made and the declared foreign key is not
enforced (the source never enables `PRAGMA foreign_keys`). -/
def insertFile (db : DB) (cat : String) (fi : FileInfo) (date : String) : DB :=
  { db with
      files := db.files ++
        [{ id := db.next_file_id, category_id := cat, file_id := fi.file_id,
           file_name := fi.file_name, file_size := fi.file_size,
           caption := fi.caption, upload_date := date }],
      next_file_id := db.next_file_id + 1 }

/-- Embeds `DatabaseManager.add_file_to_category`: one insert inside one
`with` block; a storage fault rolls back and returns `False`. -/
def add_file_to_category (db : DB) (cat : String) (fi : FileInfo)
    (date : String) (fault : Bool) : DB × Bool :=
  if fault then (db, false) else (insertFile db cat fi date, true)

/-- Embeds `DatabaseManager.add_files_to_category`: all inserts run inside a
single `with sqlite3.connect` block, i.e. one transaction.  An exception at
the k-th insert (`faultAt = some k`, `k < files.length`) aborts the loop,
the `with` block rolls the whole transaction back, and the function returns
`False` with the database exactly as before the call; otherwise every file
is inserted with consecutive `AUTOINCREMENT` ids and the call returns
`True`. -/
def add_files_to_category (db : DB) (cat : String) (fs : List FileInfo)
    (date : String) (faultAt : Option Nat) : DB × Bool :=
  match faultAt with
  | some k =>
      if k < fs.length then (db, false)
      else (fs.foldl (fun d fi => insertFile d cat fi date) db, true)
  | none => (fs.foldl (fun d fi => insertFile d cat fi date) db, true)

/-- Python list indexing: a negative index counts from the end; an index
outside `[-len, len)` raises `IndexError`, modelled as `none`. -/
def pyIndex {α : Type} (l : List α) (i : Int) : Option α :=
  if i < 0 then
    (if i + (l.length : Int) < 0 then none
     else l.get? (i + (l.length : Int)).toNat)
  else l.get? i.toNat

/-- Insert into a sorted list of ids, keeping it sorted (ascending). -/
def insertSorted (x : Nat) : List Nat → List Nat
  | [] => [x]
  | y :: ys => if x ≤ y then x :: y :: ys else y :: insertSorted x ys

/-- `ORDER BY id`: insertion sort of the selected ids. -/
def sortIds : List Nat → List Nat
  | [] => []
  | x :: xs => insertSorted x (sortIds xs)

/-- Embeds `DatabaseManager.delete_file`: select the category's file ids
`ORDER BY id`, refuse (return `False`, nothing written) when
`file_index >= len(file_ids)`, otherwise delete the row whose id sits at
`file_ids[file_index]` — Python indexing, so a negative index counts from
the end, and an `IndexError` from an index below `-len` is swallowed by the
bare `except`, which returns `False` with the transaction rolled back. -/
def delete_file (db : DB) (cat : String) (file_index : Int) (fault : Bool) :
    DB × Bool :=
  if fault then (db, false)
  else
    (let file_ids := sortIds ((files_of db cat).map (fun f => f.id))
     if (file_ids.length : Int) ≤ file_index then (db, false)
     else
       match pyIndex file_ids file_index with
       | none => (db, false)
       | some fid =>
           ({ db with files := db.files.filter (fun f => f.id != fid) }, true))

/-- Embeds `DatabaseManager.delete_category`: delete the category's file
rows and its `categories` row in one transaction; a fault rolls both back
and returns `False`.  Deleting an absent category deletes nothing and still
returns `True`. -/
def delete_category (db : DB) (cat : String) (fault : Bool) : DB × Bool :=
  if fault then (db, false)
  else ({ db with
            files := db.files.filter (fun f => !(f.category_id == cat)),
            categories := db.categories.filter (fun c => !(c.id == cat)) },
        true)

/-- The repository operations, each with its fault oracle; used to describe
the databases reachable through `DatabaseManager`. -/
inductive DBOp where
  | addCategory (id name : String) (created_by : Int) (created_at : String)
      (fault : Bool)
  | addFile (cat : String) (fi : FileInfo) (date : String) (fault : Bool)
  | addFiles (cat : String) (fs : List FileInfo) (date : String)
      (faultAt : Option Nat)
  | deleteFile (cat : String) (idx : Int) (fault : Bool)
  | deleteCategory (cat : String) (fault : Bool)

/-- State reached after one repository operation. -/
def applyOp (db : DB) : DBOp → DB
  | .addCategory id name created_by created_at fault =>
      (add_category db id name created_by created_at fault).fst
  | .addFile cat fi date fault => (add_file_to_category db cat fi date fault).fst
  | .addFiles cat fs date faultAt =>
      (add_files_to_category db cat fs date faultAt).fst
  | .deleteFile cat idx fault => (delete_file db cat idx fault).fst
  | .deleteCategory cat fault => (delete_category db cat fault).fst

/-- A database is reachable when some sequence of repository operations
produces it from the fresh database. -/
def DB.Reachable (db : DB) : Prop :=
  ∃ ops : List DBOp, db = ops.foldl applyOp DB.empty

/-- Well-formedness maintained by every repository operation: file rows are
strictly ascending in their `AUTOINCREMENT` id, and every id already handed
out is below the counter. -/
def DB.Wf (db : DB) : Prop :=
  db.files.Pairwise (fun a b => a.id < b.id) ∧
    ∀ f ∈ db.files, f.id < db.next_file_id

/-!  String helpers used by the handler layer.  They work on the character
list of the string so that every operation reduces in the kernel. -/

/-- `s.startswith(p)` on the underlying character lists. -/
def strStartsWith (s p : String) : Bool :=
  p.toList.isPrefixOf s.toList

/-- The slice `s[n:]` (by characters). -/
def strDrop (s : String) (n : Nat) : String :=
  String.mk (s.toList.drop n)

/-- Worker for `splitOnce1`: accumulate until the first `'_'`. -/
def splitOnce1Aux (acc : List Char) : List Char → String × Option String
  | [] => (String.mk acc.reverse, none)
  | c :: rest =>
      if c = '_' then (String.mk acc.reverse, some (String.mk rest))
      else splitOnce1Aux (c :: acc) rest

/-- `s.split('_', 1)`: the part before the first underscore, and the rest
after it when an underscore occurs. -/
def splitOnce1 (s : String) : String × Option String :=
  splitOnce1Aux [] s.toList

/-- Numeric value of a decimal digit character. -/
def digitVal (c : Char) : Nat := c.toNat - 48

/-- Worker for `pyDigits?`: the remaining characters must be digits,
possibly with single underscores between digit groups (Python's numeric
literal grouping, accepted by `int`). -/
def pyDigitsAux (acc : Nat) : List Char → Option Nat
  | [] => some acc
  | '_' :: c :: rest =>
      if c.isDigit then pyDigitsAux (acc * 10 + digitVal c) rest else none
  | c :: rest =>
      if c.isDigit then pyDigitsAux (acc * 10 + digitVal c) rest else none

/-- The digits of a Python `int` literal body: nonempty, starts with a
digit, single underscores allowed only between digits. -/
def pyDigits? : List Char → Option Nat
  | [] => none
  | c :: rest => if c.isDigit then pyDigitsAux (digitVal c) rest else none

/-- Python `int(s)` on the strings the bot sees: optional sign, then
digits; any other shape raises `ValueError`, modelled as `none`. -/
def pyInt? (s : String) : Option Int :=
  match s.toList with
  | '-' :: rest => (pyDigits? rest).map (fun n => -(n : Int))
  | '+' :: rest => (pyDigits? rest).map (fun n => (n : Int))
  | cs => (pyDigits? cs).map (fun n => (n : Int))

/-!  The bot layer: the in-memory upload sessions and the handlers. -/

/-- One entry of `pending_uploads`: the target `category_id` and the files
accumulated so far. -/
structure UploadInfo where
  category_id : String
  files : List FileInfo
deriving DecidableEq

/-- The mutable state the handlers touch: the database and the in-memory
`pending_uploads` map (caller id to session). -/
structure BotState where
  db : DB
  pending_uploads : Int → Option UploadInfo

/-- Point update of the session map: `pending_uploads[u] = v` for
`v = some _`, `del pending_uploads[u]` for `v = none`. -/
def setSession (m : Int → Option UploadInfo) (u : Int)
    (v : Option UploadInfo) : Int → Option UploadInfo :=
  fun x => if x = u then v else m x

/-- The process state at startup: fresh database, no pending uploads. -/
def initState : BotState := { db := DB.empty, pending_uploads := fun _ => none }

/-- The replies the handlers send (message text abstracted to its kind plus
the data interpolated into it). -/
inductive Reply where
  | welcomeAdmin
  | welcomeUser
  | categoryNotFound
  | notAuthorized
  | usageNewCategory
  | usageUpload
  | categoryCreated (id : String)
  | errorCreatingCategory
  | uploadActivated (name : String)
  | addFilesActivated
  | fileReceived (name : String) (count : Nat)
  | noUploadInProgress
  | noFilesUploaded
  | filesAdded (n : Nat)
  | errorSavingFiles
  | categoriesEmpty
  | categoriesOverview (ids : List String)
  | adminCategoryMenu (name : String) (n : Nat)
  | emptyCategory
  | sentFiles (files : List FileView)
  | filesForDeletion (names : List String)
  | fileDeleted (name : String)
  | errorDeletingFile
  | fileNotFound
  | confirmDeleteCategory (id : String)
  | categoryDeleted (name : String)
  | errorDeletingCategory
deriving DecidableEq

/-- Exceptions a handler can raise past its own code (no `try` around the
parsing in `button_handler` or the indexing in
`delete_file_from_category`). -/
inductive PyExn where
  | valueError
  | indexError
deriving DecidableEq

/-- What a callback-query handler does: answer with a reply, fall through
all prefix branches without doing anything, or raise an exception out of
the handler. -/
inductive Outcome where
  | reply (r : Reply)
  | silent
  | raised (e : PyExn)
deriving DecidableEq

/-- Embeds `handle_category_access`: look the category up; an admin gets
the management menu, anyone else gets the category's files (in the order
`get_category` reports them), with no admin gate on reading. -/
def handle_category_access (admins : List Int) (st : BotState) (u : Int)
    (cat : String) : BotState × Reply :=
  (st,
   match get_category st.db cat with
   | none => Reply.categoryNotFound
   | some c =>
       if u ∈ admins then Reply.adminCategoryMenu c.name c.files.length
       else if c.files = [] then Reply.emptyCategory
       else Reply.sentFiles c.files)

/-- Embeds the `start` command handler: a `cat_`-prefixed deep-link
argument routes to `handle_category_access`; otherwise a welcome text. -/
def start_command (admins : List Int) (st : BotState) (u : Int)
    (args : List String) : BotState × Reply :=
  match args with
  | a :: _ =>
      if strStartsWith a "cat_" then
        handle_category_access admins st u (strDrop a 4)
      else (st, if u ∈ admins then Reply.welcomeAdmin else Reply.welcomeUser)
  | [] => (st, if u ∈ admins then Reply.welcomeAdmin else Reply.welcomeUser)

/-- `' '.join(args)`. -/
def joinSpace : List String → String
  | [] => ""
  | [a] => a
  | a :: rest => a ++ " " ++ joinSpace rest

/-- Embeds the `new_category` command handler: admin gate first, then a
usage message on missing arguments, then `add_category` with the generated
id (`str(uuid.uuid4())[:8]`, supplied here as the oracle `gen_id`). -/
def new_category (admins : List Int) (st : BotState) (u : Int)
    (args : List String) (gen_id : String) (fault : Bool) (now : String) :
    BotState × Reply :=
  if u ∈ admins then
    match args with
    | [] => (st, Reply.usageNewCategory)
    | _ :: _ =>
        match add_category st.db gen_id (joinSpace args) u now fault with
        | (db2, ok) =>
            if ok then ({ st with db := db2 }, Reply.categoryCreated gen_id)
            else ({ st with db := db2 }, Reply.errorCreatingCategory)
  else (st, Reply.notAuthorized)

/-- Embeds the `upload` command handler: admin gate, usage message, then a
category-existence check; on success the caller's session is replaced by a
fresh empty one for the requested category. -/
def upload_command (admins : List Int) (st : BotState) (u : Int)
    (args : List String) : BotState × Reply :=
  if u ∈ admins then
    match args with
    | [] => (st, Reply.usageUpload)
    | a :: _ =>
        match get_category st.db a with
        | none => (st, Reply.categoryNotFound)
        | some c =>
            let p := setSession st.pending_uploads u
              (some { category_id := a, files := [] })
            ({ st with pending_uploads := p }, Reply.uploadActivated c.name)
  else (st, Reply.notAuthorized)

/-- Embeds `handle_document`: a document from a caller with no pending
upload is silently ignored; otherwise it is appended to the session's
accumulator. -/
def handle_document (st : BotState) (u : Int) (fi : FileInfo) :
    BotState × Option Reply :=
  match st.pending_uploads u with
  | none => (st, none)
  | some info =>
      let p := setSession st.pending_uploads u
        (some { info with files := info.files ++ [fi] })
      ({ st with pending_uploads := p },
       some (Reply.fileReceived fi.file_name (info.files.length + 1)))

/-- Embeds `finish_upload`: no session or an empty accumulator is refused
without touching anything; otherwise `add_files_to_category` runs, the
session is deleted only when it reports success, and on failure the session
(and, by rollback, the database) is left as it was. -/
def finish_upload (st : BotState) (u : Int) (faultAt : Option Nat)
    (date : String) : BotState × Reply :=
  match st.pending_uploads u with
  | none => (st, Reply.noUploadInProgress)
  | some info =>
      if info.files = [] then (st, Reply.noFilesUploaded)
      else
        match add_files_to_category st.db info.category_id info.files date
          faultAt with
        | (db2, ok) =>
            if ok then
              ({ db := db2,
                 pending_uploads := setSession st.pending_uploads u none },
               Reply.filesAdded info.files.length)
            else ({ st with db := db2 }, Reply.errorSavingFiles)

/-- Embeds the `categories` command handler (read-only). -/
def categories_list (admins : List Int) (st : BotState) (u : Int) :
    BotState × Reply :=
  (st,
   if u ∈ admins then
     if get_categories st.db = [] then Reply.categoriesEmpty
     else Reply.categoriesOverview ((get_categories st.db).map (fun e => e.fst))
   else Reply.notAuthorized)

/-- Embeds `view_category_files` (read-only). -/
def view_category_files (st : BotState) (cat : String) : BotState × Reply :=
  (st,
   match get_category st.db cat with
   | none => Reply.categoryNotFound
   | some c =>
       if c.files = [] then Reply.emptyCategory else Reply.sentFiles c.files)

/-- Embeds `start_adding_files`: the inline-button way into upload mode.
It replaces the caller's session unconditionally and, unlike
`upload_command`, never checks that the category exists. -/
def start_adding_files (st : BotState) (cat : String) (u : Int) :
    BotState × Reply :=
  let p := setSession st.pending_uploads u
    (some { category_id := cat, files := [] })
  ({ st with pending_uploads := p }, Reply.addFilesActivated)

/-- Embeds `show_files_for_deletion` (read-only). -/
def show_files_for_deletion (st : BotState) (cat : String) :
    BotState × Reply :=
  (st,
   match get_category st.db cat with
   | none => Reply.categoryNotFound
   | some c =>
       if c.files = [] then Reply.emptyCategory
       else Reply.filesForDeletion (c.files.map (fun f => f.file_name)))

/-- Embeds `confirm_category_deletion` (read-only, no existence check; the
category id is embedded in the confirmation button's callback data). -/
def confirm_category_deletion (st : BotState) (cat : String) :
    BotState × Reply :=
  (st, Reply.confirmDeleteCategory cat)

/-- Embeds the module-level `delete_category` handler (the button action,
as opposed to the `DatabaseManager` method of the same Python name). -/
def delete_category_handler (st : BotState) (cat : String) (fault : Bool) :
    BotState × Reply :=
  match get_category st.db cat with
  | none => (st, Reply.categoryNotFound)
  | some c =>
      match delete_category st.db cat fault with
      | (db2, ok) =>
          if ok then ({ st with db := db2 }, Reply.categoryDeleted c.name)
          else ({ st with db := db2 }, Reply.errorDeletingCategory)

/-- Embeds `delete_file_from_category`: existence check, the
`file_index >= len(...)` guard, then `category['files'][file_index]` —
Python indexing with no `try`, so an index below `-len` raises `IndexError`
out of the handler — and finally `delete_file` on the database. -/
def delete_file_from_category (st : BotState) (cat : String) (idx : Int)
    (fault : Bool) : BotState × Outcome :=
  match get_category st.db cat with
  | none => (st, Outcome.reply Reply.categoryNotFound)
  | some c =>
      if ((c.files.length : Int)) ≤ idx then (st, Outcome.reply Reply.fileNotFound)
      else
        match pyIndex c.files idx with
        | none => (st, Outcome.raised PyExn.indexError)
        | some fv =>
            match delete_file st.db cat idx fault with
            | (db2, ok) =>
                if ok then
                  ({ st with db := db2 },
                   Outcome.reply (Reply.fileDeleted fv.file_name))
                else ({ st with db := db2 },
                      Outcome.reply Reply.errorDeletingFile)

/-- Embeds `button_handler`: admin gate, then string-prefix dispatch on the
callback data.  The `del_file_` branch slices off the prefix, splits once
on `'_'` and calls `int` on the second part: a missing part raises
`IndexError`, a non-numeric part raises `ValueError`, both uncaught.  Data
matching no prefix falls through silently. -/
def button_handler (admins : List Int) (st : BotState) (u : Int)
    (data : String) (fault : Bool) : BotState × Outcome :=
  if u ∈ admins then
    if strStartsWith data "view_" then
      ((view_category_files st (strDrop data 5)).fst,
       Outcome.reply (view_category_files st (strDrop data 5)).snd)
    else if strStartsWith data "add_" then
      ((start_adding_files st (strDrop data 4) u).fst,
       Outcome.reply (start_adding_files st (strDrop data 4) u).snd)
    else if strStartsWith data "delete_file_" then
      ((show_files_for_deletion st (strDrop data 12)).fst,
       Outcome.reply (show_files_for_deletion st (strDrop data 12)).snd)
    else if strStartsWith data "delete_cat_" then
      ((confirm_category_deletion st (strDrop data 11)).fst,
       Outcome.reply (confirm_category_deletion st (strDrop data 11)).snd)
    else if strStartsWith data "confirm_del_cat_" then
      ((delete_category_handler st (strDrop data 16) fault).fst,
       Outcome.reply (delete_category_handler st (strDrop data 16) fault).snd)
    else if strStartsWith data "del_file_" then
      (match splitOnce1 (strDrop data 9) with
       | (_, none) => (st, Outcome.raised PyExn.indexError)
       | (cat, some idxStr) =>
           match pyInt? idxStr with
           | none => (st, Outcome.raised PyExn.valueError)
           | some idx => delete_file_from_category st cat idx fault)
    else (st, Outcome.silent)
  else (st, Outcome.reply Reply.notAuthorized)

/-- The events the application wires to the handlers, each with the oracle
inputs (generated id, storage faults, timestamps) the environment picks. -/
inductive Ev where
  | startCmd (u : Int) (args : List String)
  | newCat (u : Int) (args : List String) (gen_id : String) (fault : Bool)
      (now : String)
  | upload (u : Int) (args : List String)
  | document (u : Int) (fi : FileInfo)
  | finish (u : Int) (faultAt : Option Nat) (date : String)
  | button (u : Int) (data : String) (fault : Bool)
  | listCats (u : Int)

/-- State transition of one incoming event. -/
def stepEv (admins : List Int) (st : BotState) : Ev → BotState
  | .startCmd u args => (start_command admins st u args).fst
  | .newCat u args gen_id fault now =>
      (new_category admins st u args gen_id fault now).fst
  | .upload u args => (upload_command admins st u args).fst
  | .document u fi => (handle_document st u fi).fst
  | .finish u faultAt date => (finish_upload st u faultAt date).fst
  | .button u data fault => (button_handler admins st u data fault).fst
  | .listCats u => (categories_list admins st u).fst

/-- A process state is reachable when some event sequence produces it from
the startup state. -/
def SysReachable (admins : List Int) (st : BotState) : Prop :=
  ∃ evs : List Ev, st = evs.foldl (stepEv admins) initState

/-- The rows `add_files_to_category` inserts for the file list, starting at
`AUTOINCREMENT` value `next`. -/
def mkRows (next : Nat) (cat : String) (fs : List FileInfo) (date : String) :
    List FileRow :=
  match fs with
  | [] => []
  | fi :: rest =>
      { id := next, category_id := cat, file_id := fi.file_id,
        file_name := fi.file_name, file_size := fi.file_size,
        caption := fi.caption, upload_date := date } ::
        mkRows (next + 1) cat rest date

/-- Every key of the in-memory `pending_uploads` map is an admin. -/
def KeysAdmin (admins : List Int) (st : BotState) : Prop :=
  ∀ u, st.pending_uploads u ≠ none → u ∈ admins

/-- A sample file descriptor used in concrete runs. -/
def fiX : FileInfo :=
  { file_id := "F", file_name := "doc", file_size := 1, caption := "" }

/-- A second sample file descriptor. -/
def fiY : FileInfo :=
  { file_id := "G", file_name := "pic", file_size := 2, caption := "c" }

/-- Repository run: create category `"c"`, then append two files to it. -/
def opsC : List DBOp :=
  [DBOp.addCategory "c" "n" 1 "t" false,
   DBOp.addFile "c" fiX "d" false,
   DBOp.addFile "c" fiY "d" false]

/-- The database those operations produce: category `"c"` with file rows
ids 1 and 2, counter at 3. -/
def dbC : DB := opsC.foldl applyOp DB.empty

/-- Bot state holding `dbC` with no pending uploads. -/
def stC : BotState := { db := dbC, pending_uploads := fun _ => none }

/-- A pending session for caller 7 targeting category `"c"` with one
accumulated file. -/
def infoC : UploadInfo := { category_id := "c", files := [fiX] }

/-- Bot state holding `dbC` and the pending session of caller 7. -/
def stSess : BotState :=
  { db := dbC, pending_uploads := setSession (fun _ => none) 7 (some infoC) }

/-- The view `get_category` reports for category `"c"` of `dbC`. -/
def vC : CategoryView :=
  { name := "n",
    files := [{ file_id := "F", file_name := "doc", file_size := 1,
                caption := "" },
              { file_id := "G", file_name := "pic", file_size := 2,
                caption := "c" }],
    created_by := 1, created_at := "t" }

/-!  Length and shape lemmas for the sorting and insertion helpers. -/

theorem insertSorted_length (x : Nat) (l : List Nat) :
    (insertSorted x l).length = l.length + 1 := by
  induction l with
  | nil => rfl
  | cons y ys ih =>
      unfold insertSorted
      split
      · rfl
      · simp [List.length_cons, ih]

theorem sortIds_length (l : List Nat) : (sortIds l).length = l.length := by
  induction l with
  | nil => rfl
  | cons x xs ih => unfold sortIds; rw [insertSorted_length, ih]; rfl

theorem foldl_insertFile_files (cat date : String) (fs : List FileInfo) :
    ∀ db : DB,
      (fs.foldl (fun d fi => insertFile d cat fi date) db).files =
        db.files ++ mkRows db.next_file_id cat fs date := by
  induction fs with
  | nil => intro db; simp [mkRows]
  | cons fi rest ih =>
      intro db
      rw [List.foldl_cons, ih]
      simp [insertFile, mkRows, List.append_assoc]

theorem foldl_insertFile_next (cat date : String) (fs : List FileInfo) :
    ∀ db : DB,
      (fs.foldl (fun d fi => insertFile d cat fi date) db).next_file_id =
        db.next_file_id + fs.length := by
  induction fs with
  | nil => intro db; rfl
  | cons fi rest ih =>
      intro db
      rw [List.foldl_cons, ih]
      simp [insertFile]
      omega

theorem foldl_insertFile_categories (cat date : String) (fs : List FileInfo) :
    ∀ db : DB,
      (fs.foldl (fun d fi => insertFile d cat fi date) db).categories =
        db.categories := by
  induction fs with
  | nil => intro db; rfl
  | cons fi rest ih => intro db; rw [List.foldl_cons, ih]; rfl

theorem mkRows_ids (cat date : String) (fs : List FileInfo) :
    ∀ next : Nat,
      (mkRows next cat fs date).map (fun f => f.id) =
        List.range' next fs.length := by
  induction fs with
  | nil => intro next; rfl
  | cons fi rest ih => intro next; simp [mkRows, List.range', ih]

/-!  The well-formedness invariant and its preservation. -/

theorem wf_empty : DB.Wf DB.empty := by
  constructor
  · exact List.Pairwise.nil
  · intro f hf; cases hf

theorem wf_insertFile {db : DB} (h : DB.Wf db) (cat : String) (fi : FileInfo)
    (date : String) : DB.Wf (insertFile db cat fi date) := by
  obtain ⟨hp, hb⟩ := h
  constructor
  · refine List.pairwise_append.mpr ⟨hp, List.pairwise_singleton _ _, ?_⟩
    intro a ha b hb'
    rcases List.mem_singleton.mp hb' with rfl
    exact hb a ha
  · intro f hf
    rcases List.mem_append.mp hf with hf | hf
    · exact Nat.lt_succ_of_lt (hb f hf)
    · rcases List.mem_singleton.mp hf with rfl
      exact Nat.lt_succ_self _

theorem wf_foldl_insert {db : DB} (cat date : String) (fs : List FileInfo)
    (h : DB.Wf db) :
    DB.Wf (fs.foldl (fun d fi => insertFile d cat fi date) db) := by
  induction fs generalizing db with
  | nil => exact h
  | cons fi rest ih =>
      rw [List.foldl_cons]
      exact ih (wf_insertFile h cat fi date)

theorem wf_filter {db : DB} (h : DB.Wf db) (p : FileRow → Bool) :
    DB.Wf { db with files := db.files.filter p } := by
  obtain ⟨hp, hb⟩ := h
  constructor
  · exact List.Pairwise.sublist (List.filter_sublist _) hp
  · intro f hf
    exact hb f (List.mem_of_mem_filter hf)

theorem wf_applyOp {db : DB} (h : DB.Wf db) (op : DBOp) :
    DB.Wf (applyOp db op) := by
  cases op with
  | addCategory id name created_by created_at fault =>
      simp only [applyOp]
      unfold add_category
      split
      · exact h
      · split
        · exact h
        · exact ⟨h.1, h.2⟩
  | addFile cat fi date fault =>
      simp only [applyOp]
      unfold add_file_to_category
      split
      · exact h
      · exact wf_insertFile h cat fi date
  | addFiles cat fs date faultAt =>
      cases faultAt with
      | none =>
          simp only [applyOp, add_files_to_category]
          exact wf_foldl_insert cat date fs h
      | some k =>
          simp only [applyOp, add_files_to_category]
          split
          · exact h
          · exact wf_foldl_insert cat date fs h
  | deleteFile cat idx fault =>
      simp only [applyOp]
      unfold delete_file
      split
      · exact h
      · dsimp only
        split
        · exact h
        · split
          · exact h
          · exact wf_filter h _
  | deleteCategory cat fault =>
      simp only [applyOp]
      unfold delete_category
      split
      · exact h
      · exact wf_filter h _

theorem wf_reachable {db : DB} (h : DB.Reachable db) : DB.Wf db := by
  obtain ⟨ops, rfl⟩ := h
  suffices aux : ∀ (ops : List DBOp) (db0 : DB), DB.Wf db0 →
      DB.Wf (ops.foldl applyOp db0) from aux ops DB.empty wf_empty
  intro ops
  induction ops with
  | nil => intro db0 h0; exact h0
  | cons op rest ih =>
      intro db0 h0
      rw [List.foldl_cons]
      exact ih (applyOp db0 op) (wf_applyOp h0 op)

/-- The rows a category query returns inherit the strict ordering of the
table. -/
theorem files_of_pairwise {db : DB} (h : DB.Wf db) (cat : String) :
    (files_of db cat).Pairwise (fun a b => a.id < b.id) :=
  List.Pairwise.sublist (List.filter_sublist _) h.1

/-!  Preservation of `KeysAdmin` by every handler. -/

theorem keysAdmin_init (admins : List Int) : KeysAdmin admins initState := by
  intro u hu
  exact absurd rfl hu

theorem keysAdmin_db {admins : List Int} {st : BotState} (h : KeysAdmin admins st)
    (db' : DB) : KeysAdmin admins { st with db := db' } :=
  fun u hu => h u hu

theorem keysAdmin_update {admins : List Int} {st : BotState}
    (h : KeysAdmin admins st) {u : Int} (hu : u ∈ admins) (db' : DB)
    (v : Option UploadInfo) :
    KeysAdmin admins
      { db := db', pending_uploads := setSession st.pending_uploads u v } := by
  intro w hw
  by_cases hwu : w = u
  · exact hwu ▸ hu
  · apply h w
    simpa [setSession, hwu] using hw

theorem keysAdmin_remove {admins : List Int} {st : BotState}
    (h : KeysAdmin admins st) (u : Int) (db' : DB) :
    KeysAdmin admins
      { db := db', pending_uploads := setSession st.pending_uploads u none } := by
  intro w hw
  by_cases hwu : w = u
  · subst hwu
    simp [setSession] at hw
  · apply h w
    simpa [setSession, hwu] using hw

theorem start_command_fst (admins : List Int) (st : BotState) (u : Int)
    (args : List String) : (start_command admins st u args).fst = st := by
  cases args with
  | nil => rfl
  | cons a rest =>
      simp only [start_command]
      split
      · rfl
      · rfl

theorem new_category_pending (admins : List Int) (st : BotState) (u : Int)
    (args : List String) (gen_id : String) (fault : Bool) (now : String) :
    (new_category admins st u args gen_id fault now).fst.pending_uploads =
      st.pending_uploads := by
  unfold new_category
  split
  · split
    · rfl
    · split
      split
      · rfl
      · rfl
  · rfl

theorem keysAdmin_upload (admins : List Int) (st : BotState) (u : Int)
    (args : List String) (h : KeysAdmin admins st) :
    KeysAdmin admins (upload_command admins st u args).fst := by
  unfold upload_command
  split
  case isTrue hu =>
    cases args with
    | nil => exact h
    | cons a rest =>
        cases hg : get_category st.db a with
        | none => simp only [hg]; exact h
        | some c =>
            simp only [hg]
            exact keysAdmin_update h hu st.db _
  case isFalse hu => exact h

theorem keysAdmin_document (st : BotState) (u : Int) (fi : FileInfo)
    {admins : List Int} (h : KeysAdmin admins st) :
    KeysAdmin admins (handle_document st u fi).fst := by
  unfold handle_document
  cases hp : st.pending_uploads u with
  | none => exact h
  | some info =>
      simp only [hp]
      exact keysAdmin_update h (h u (by simp [hp])) st.db _

theorem keysAdmin_finish (st : BotState) (u : Int) (faultAt : Option Nat)
    (date : String) {admins : List Int} (h : KeysAdmin admins st) :
    KeysAdmin admins (finish_upload st u faultAt date).fst := by
  unfold finish_upload
  cases hp : st.pending_uploads u with
  | none => exact h
  | some info =>
      simp only [hp]
      split
      · exact h
      · split
        · exact keysAdmin_remove h u _
        · exact keysAdmin_db h _

theorem delete_category_handler_pending (st : BotState) (cat : String)
    (fault : Bool) :
    (delete_category_handler st cat fault).fst.pending_uploads =
      st.pending_uploads := by
  unfold delete_category_handler
  split
  · rfl
  · split
    split
    · rfl
    · rfl

theorem delete_file_from_category_pending (st : BotState) (cat : String)
    (idx : Int) (fault : Bool) :
    (delete_file_from_category st cat idx fault).fst.pending_uploads =
      st.pending_uploads := by
  unfold delete_file_from_category
  split
  · rfl
  · split
    · rfl
    · split
      · rfl
      · split
        split
        · rfl
        · rfl

theorem keysAdmin_button (admins : List Int) (st : BotState) (u : Int)
    (data : String) (fault : Bool) (h : KeysAdmin admins st) :
    KeysAdmin admins (button_handler admins st u data fault).fst := by
  unfold button_handler
  split
  case isTrue hu =>
    split
    · exact h
    · split
      · exact keysAdmin_update h hu st.db _
      · split
        · exact h
        · split
          · exact h
          · split
            · intro w hw
              apply h w
              rwa [delete_category_handler_pending] at hw
            · split
              · split
                · exact h
                · split
                  · exact h
                  · intro w hw
                    apply h w
                    rwa [delete_file_from_category_pending] at hw
              · exact h
  case isFalse hu => exact h

theorem keysAdmin_stepEv (admins : List Int) (st : BotState)
    (h : KeysAdmin admins st) (e : Ev) :
    KeysAdmin admins (stepEv admins st e) := by
  cases e with
  | startCmd u args =>
      simp only [stepEv]
      rw [start_command_fst]
      exact h
  | newCat u args gen_id fault now =>
      intro w hw
      apply h w
      simp only [stepEv] at hw
      rwa [new_category_pending] at hw
  | upload u args => exact keysAdmin_upload admins st u args h
  | document u fi => exact keysAdmin_document st u fi h
  | finish u faultAt date => exact keysAdmin_finish st u faultAt date h
  | button u data fault => exact keysAdmin_button admins st u data fault h
  | listCats u => exact h

/-- Every reachable process state keeps its session keys inside the admin
set: the two session-creating paths are admin-gated and no other operation
adds a key. -/
theorem keysAdmin_reachable {admins : List Int} {st : BotState}
    (h : SysReachable admins st) : KeysAdmin admins st := by
  obtain ⟨evs, rfl⟩ := h
  suffices aux : ∀ (evs : List Ev) (st0 : BotState), KeysAdmin admins st0 →
      KeysAdmin admins (evs.foldl (stepEv admins) st0) from
    aux evs initState (keysAdmin_init admins)
  intro evs
  induction evs with
  | nil => intro st0 h0; exact h0
  | cons e rest ih =>
      intro st0 h0
      rw [List.foldl_cons]
      exact ih (stepEv admins st0 e) (keysAdmin_stepEv admins st0 h0 e)

/-- A caller outside the admin set has no pending session in any reachable
state. -/
theorem not_admin_no_session {admins : List Int} {st : BotState}
    (h : SysReachable admins st) {u : Int} (hu : u ∉ admins) :
    st.pending_uploads u = none := by
  by_contra hne
  exact hu (keysAdmin_reachable h u hne)

/-!  The claims. -/

/-- C1: for every reachable database, `getCategory` (and therefore
`listCategories`, of which it is the lookup) reports a category's file
records exactly as the rows the category query returns, and those rows are
in strictly ascending persisted sequence (`AUTOINCREMENT` id) order — i.e.
original insertion order — no matter which insertions and deletions
produced the state. -/
theorem C1_read_in_sequence_order (db : DB) (cat : String)
    (h : DB.Reachable db) (v : CategoryView)
    (hv : get_category db cat = some v) :
    v.files = (files_of db cat).map fileView ∧
      (files_of db cat).Pairwise (fun a b => a.id < b.id) := by
  constructor
  · unfold get_category at hv
    rcases Option.map_eq_some'.mp hv with ⟨e, he, hev⟩
    have hmem := List.mem_of_find?_eq_some he
    have hpred := List.find?_some he
    rw [get_categories, List.mem_map] at hmem
    rcases hmem with ⟨c, hc, hce⟩
    subst hce
    have hid : c.id = cat := by simpa using hpred
    subst hev
    simp only [hid]
  · exact files_of_pairwise (wf_reachable h) cat

/-- Witness for C1 at the concrete reachable database `dbC`. -/
theorem C1_witness : vC.files = (files_of dbC "c").map fileView :=
  (C1_read_in_sequence_order dbC "c" ⟨opsC, rfl⟩ vC (by decide)).1

/-- C2: `appendFiles` (`add_files_to_category`) with a non-empty batch is
all-or-nothing: a failing transaction leaves the database exactly as it
was, and a successful one appends precisely the batch's rows, whose
sequence ids are the consecutive run starting at the `AUTOINCREMENT`
counter — in particular strictly above every id already present in the
category. -/
theorem C2_appendFiles_atomic (db : DB) (cat : String) (fs : List FileInfo)
    (date : String) (faultAt : Option Nat) (hr : DB.Reachable db)
    (_hne : fs ≠ []) :
    ((add_files_to_category db cat fs date faultAt).snd = false →
        (add_files_to_category db cat fs date faultAt).fst = db) ∧
      ((add_files_to_category db cat fs date faultAt).snd = true →
        (add_files_to_category db cat fs date faultAt).fst.files =
            db.files ++ mkRows db.next_file_id cat fs date ∧
          (mkRows db.next_file_id cat fs date).map (fun f => f.id) =
            List.range' db.next_file_id fs.length ∧
          ∀ f ∈ files_of db cat, f.id < db.next_file_id) := by
  have hwf := wf_reachable hr
  cases faultAt with
  | none =>
      constructor
      · intro hfalse
        simp [add_files_to_category] at hfalse
      · intro _
        refine ⟨?_, mkRows_ids cat date fs db.next_file_id, ?_⟩
        · simp only [add_files_to_category]
          exact foldl_insertFile_files cat date fs db
        · intro f hf
          exact hwf.2 f (List.mem_of_mem_filter hf)
  | some k =>
      by_cases hk : k < fs.length
      · constructor
        · intro _
          simp [add_files_to_category, hk]
        · intro htrue
          simp [add_files_to_category, hk] at htrue
      · constructor
        · intro hfalse
          simp [add_files_to_category, hk] at hfalse
        · intro _
          refine ⟨?_, mkRows_ids cat date fs db.next_file_id, ?_⟩
          · simp only [add_files_to_category, if_neg hk]
            exact foldl_insertFile_files cat date fs db
          · intro f hf
            exact hwf.2 f (List.mem_of_mem_filter hf)

/-- Witness for C2: one successful append on the concrete database. -/
theorem C2_witness :
    (add_files_to_category dbC "c" [fiX] "d" none).fst.files =
      dbC.files ++ mkRows dbC.next_file_id "c" [fiX] "d" :=
  ((C2_appendFiles_atomic dbC "c" [fiX] "d" none ⟨opsC, rfl⟩
      (by decide)).2 rfl).1

/-- C3 counterexample: on `dbC` (category `"c"` with two files) the
out-of-bounds index `-1` is not refused: `delete_file` reports success and
removes the last file, so the claim's "any negative index yields
NotFoundError and no mutation" is false on the code. -/
theorem C3_counterexample :
    (delete_file dbC "c" (-1) false).snd = true ∧
      (delete_file dbC "c" (-1) false).fst.files.map (fun f => f.id) = [1] := by
  constructor
  · rfl
  · rfl

/-- C3 (amended): `delete_file` refuses with no mutation exactly the
indices at or above the category's file count and those below minus the
count; a negative index within `[-count, -1]` is instead resolved Python
style from the end of the ascending-id list and that file is deleted with
success reported. -/
theorem C3_deleteFileAt_bounds (db : DB) (cat : String) (i : Int) :
    ((((files_of db cat).length : Int) ≤ i ∨
        i + ((files_of db cat).length : Int) < 0) →
      delete_file db cat i false = (db, false)) ∧
    (0 ≤ i + ((files_of db cat).length : Int) → i < 0 →
      ∃ fid,
        (sortIds ((files_of db cat).map (fun f => f.id))).get?
            (i + ((files_of db cat).length : Int)).toNat = some fid ∧
          delete_file db cat i false =
            ({ db with files := db.files.filter (fun f => f.id != fid) },
             true)) := by
  have hlen : (sortIds ((files_of db cat).map (fun f => f.id))).length =
      (files_of db cat).length := by
    rw [sortIds_length, List.length_map]
  constructor
  · intro h
    unfold delete_file
    rw [if_neg (by simp : ¬((false : Bool) = true))]
    rcases h with h | h
    · rw [if_pos (by rw [hlen]; exact h)]
    · rw [if_neg (by rw [hlen]; omega)]
      have hnone :
          pyIndex (sortIds ((files_of db cat).map (fun f => f.id))) i = none := by
        unfold pyIndex
        rw [if_pos (show i < 0 by omega)]
        rw [if_pos (by rw [hlen]; exact h)]
      rw [hnone]
  · intro h0 hneg
    have hj : (i + ((files_of db cat).length : Int)).toNat <
        (sortIds ((files_of db cat).map (fun f => f.id))).length := by
      rw [hlen]; omega
    refine ⟨(sortIds ((files_of db cat).map (fun f => f.id))).get
      ⟨(i + ((files_of db cat).length : Int)).toNat, hj⟩,
      List.get?_eq_get hj, ?_⟩
    unfold delete_file
    rw [if_neg (by simp : ¬((false : Bool) = true))]
    rw [if_neg (by rw [hlen]; omega)]
    have hpy : pyIndex (sortIds ((files_of db cat).map (fun f => f.id))) i =
        some ((sortIds ((files_of db cat).map (fun f => f.id))).get
          ⟨(i + ((files_of db cat).length : Int)).toNat, hj⟩) := by
      unfold pyIndex
      rw [if_pos hneg]
      rw [if_neg (by rw [hlen]; omega)]
      have harg :
          (i + ((sortIds ((files_of db cat).map (fun f => f.id))).length :
            Int)).toNat =
          (i + ((files_of db cat).length : Int)).toNat := by
        rw [hlen]
      rw [harg]
      exact List.get?_eq_get hj
    rw [hpy]

/-- Witness for C3 (amended): both refusal regimes and the wrapping delete,
on the concrete database. -/
theorem C3_witness :
    delete_file dbC "c" 5 false = (dbC, false) ∧
      delete_file dbC "c" (-3) false = (dbC, false) ∧
      (delete_file dbC "c" (-1) false).snd = true := by
  refine ⟨(C3_deleteFileAt_bounds dbC "c" 5).1 ?_,
    (C3_deleteFileAt_bounds dbC "c" (-3)).1 ?_, ?_⟩
  · left; decide
  · right; decide
  · obtain ⟨fid, hfid, heq⟩ :=
      (C3_deleteFileAt_bounds dbC "c" (-1)).2 (by decide) (by decide)
    rw [heq]

/-- C4 (code-bug evaluation): `add_files_to_category` on a category id that
is not in the repository — here the empty repository — stores the orphan
file row and reports success, because the declared foreign key is never
enabled (`PRAGMA foreign_keys` is never issued) and the function makes no
existence check; the claim's `NotFoundError` with nothing stored does not
happen. -/
theorem C4_orphan_append_eval :
    (add_files_to_category DB.empty "ghost" [fiX] "d" none).snd = true ∧
      (add_files_to_category DB.empty "ghost" [fiX] "d" none).fst.files.map
          (fun f => f.category_id) = ["ghost"] ∧
      (add_files_to_category DB.empty "ghost" [fiX] "d" none).fst.categories
          = [] ∧
      get_category DB.empty "ghost" = none := by
  refine ⟨rfl, rfl, rfl, rfl⟩

/-- C5 counterexample: creating a category whose id already exists produces
exactly the same observable outcome — unchanged database, bare `False` — as
a storage failure on a fresh id, so no `ConflictError` distinguishable from
`PersistenceError` exists anywhere in the interface. -/
theorem C5_counterexample :
    add_category dbC "c" "m" 2 "t2" false = (dbC, false) ∧
      add_category dbC "z" "m" 2 "t2" true = (dbC, false) := by
  constructor
  · rfl
  · rfl

/-- C5 (amended): an id collision on `add_category` is detected by the
`PRIMARY KEY` constraint and surfaced as a failed call (`False`) with the
existing category left untouched — never a silent overwrite — but the
failure is an undifferentiated boolean, not a `ConflictError`
distinguishable from a `PersistenceError`. -/
theorem C5_collision_detected (db : DB) (id name : String) (creator : Int)
    (now : String) (fault : Bool)
    (h : ∃ c ∈ db.categories, c.id = id) :
    add_category db id name creator now fault = (db, false) := by
  unfold add_category
  split
  · rfl
  · have hc : db.categories.any (fun c => c.id == id) = true := by
      rcases h with ⟨c, hc, hid⟩
      exact List.any_eq_true.mpr ⟨c, hc, beq_iff_eq.mpr hid⟩
    rw [if_pos hc]

/-- Witness for C5 (amended) at the concrete collision on `dbC`. -/
theorem C5_witness : add_category dbC "c" "w" 2 "t2" false = (dbC, false) :=
  C5_collision_detected dbC "c" "w" 2 "t2" false
    ⟨{ id := "c", name := "n", created_by := 1, created_at := "t" },
     by decide, rfl⟩

/-- C6: a caller whose pending session holds a non-empty accumulator keeps
exactly that session — same target category, same files — when the
repository append inside `finish_upload` fails, so the commit can be
retried; the session is deleted (caller back to idle) only when the append
succeeds. -/
theorem C6_commit_failure_keeps_session (st : BotState) (u : Int)
    (info : UploadInfo) (k : Nat) (date : String)
    (h1 : st.pending_uploads u = some info) (h2 : info.files ≠ [])
    (h3 : k < info.files.length) :
    finish_upload st u (some k) date = (st, Reply.errorSavingFiles) ∧
      (finish_upload st u none date).fst.pending_uploads u = none := by
  constructor
  · unfold finish_upload
    simp only [h1]
    rw [if_neg h2]
    have hfail : add_files_to_category st.db info.category_id info.files date
        (some k) = (st.db, false) := by
      simp only [add_files_to_category]
      rw [if_pos h3]
    rw [hfail]
    exact rfl
  · unfold finish_upload
    simp only [h1]
    rw [if_neg h2]
    have hok : (add_files_to_category st.db info.category_id info.files date
        none).snd = true := rfl
    rw [if_pos hok]
    simp [setSession]

/-- Witness for C6 on the concrete session state `stSess`. -/
theorem C6_witness :
    finish_upload stSess 7 (some 0) "d" = (stSess, Reply.errorSavingFiles) ∧
      (finish_upload stSess 7 none "d").fst.pending_uploads 7 = none :=
  C6_commit_failure_keeps_session stSess 7 infoC 0 "d" (by decide) (by decide)
    (by decide)

/-- C7 counterexample: through the admin inline button `add_<id>` the
session-creating path `start_adding_files` runs with no category-existence
check: on the fresh state, whose database has no category `"zz"`, the
button still moves caller 7 into a collecting session for `"zz"`, so "start
succeeds only if the category exists (otherwise no session change)" is
false on the code. -/
theorem C7_counterexample :
    get_category initState.db "zz" = none ∧
      initState.pending_uploads 7 = none ∧
      (button_handler [7] initState 7 "add_zz" false).fst.pending_uploads 7 =
        some { category_id := "zz", files := [] } := by
  refine ⟨rfl, rfl, by decide⟩

/-- C7 (amended): the `/upload` command path does require the category to
exist — an absent category changes nothing — and on success installs the
fresh empty session `Collecting(categoryId, [])`, discarding whatever the
caller had accumulated; the inline-button path (`start_adding_files`)
installs that fresh session unconditionally, without the existence
check. -/
theorem C7_start_session_semantics (admins : List Int) (st : BotState)
    (u : Int) (cat : String) (rest : List String) (hu : u ∈ admins) :
    (get_category st.db cat = none →
        upload_command admins st u (cat :: rest) =
          (st, Reply.categoryNotFound)) ∧
      (∀ c, get_category st.db cat = some c →
        (upload_command admins st u (cat :: rest)).fst.pending_uploads u =
            some { category_id := cat, files := [] } ∧
          (upload_command admins st u (cat :: rest)).fst.db = st.db) ∧
      ((start_adding_files st cat u).fst.pending_uploads u =
          some { category_id := cat, files := [] } ∧
        (start_adding_files st cat u).fst.db = st.db) := by
  refine ⟨?_, ?_, ?_⟩
  · intro hnone
    unfold upload_command
    rw [if_pos hu]
    simp only [hnone]
  · intro c hc
    unfold upload_command
    rw [if_pos hu]
    simp only [hc]
    constructor
    · simp [setSession]
    · simp
  · constructor
    · simp [start_adding_files, setSession]
    · rfl

/-- Witness for C7 (amended): both session-creating paths at the concrete
state `stC`. -/
theorem C7_witness :
    (upload_command [7] stC 7 ["c"]).fst.pending_uploads 7 =
        some { category_id := "c", files := [] } ∧
      (start_adding_files stC "c" 7).fst.pending_uploads 7 =
        some { category_id := "c", files := [] } := by
  have h := C7_start_session_semantics [7] stC 7 "c" [] (by decide)
  exact ⟨(h.2.1 vC (by decide)).1, h.2.2.1⟩

/-- C8 (code-bug evaluation): decoding the callback token is not total —
a `del_file_` token with a non-numeric index payload makes `int(...)` raise
`ValueError`, and one with the index field missing makes `parts[1]` raise
`IndexError`; both escape `button_handler` uncaught instead of being
returned as a `DecodeError` value (an unknown prefix does fall through as a
silent no-op, and the state is never mutated before the raise). -/
theorem C8_decode_raises_eval :
    (button_handler [7] initState 7 "del_file_c_x" false).snd =
        Outcome.raised PyExn.valueError ∧
      (button_handler [7] initState 7 "del_file_c" false).snd =
        Outcome.raised PyExn.indexError ∧
      (button_handler [7] initState 7 "del_file_c_x" false).fst = initState ∧
      (button_handler [7] initState 7 "nonsense" false).snd =
        Outcome.silent := by
  refine ⟨rfl, rfl, rfl, rfl⟩

/-- C9 counterexample: a non-admin caller (2, with admin set `[1]`) who
invokes commit (`finish_upload`) is turned away by the session-membership
check with the "no upload in progress" reply, not with the authorization
error the claim requires of every mutating entry point; no state is
changed. -/
theorem C9_counterexample :
    finish_upload initState 2 none "d" =
        (initState, Reply.noUploadInProgress) ∧
      Reply.noUploadInProgress ≠ Reply.notAuthorized ∧
      (2 : Int) ∉ ([1] : List Int) := by
  refine ⟨rfl, by decide, by decide⟩

/-- C9 (amended): in every reachable state, a caller outside the admin set
can mutate nothing: `new_category`, `upload_command` and every inline
button answer `notAuthorized` with the state untouched, while commit
(`finish_upload`) and document submission are rejected through the
session-membership check — a "no upload in progress" reply, respectively a
silent ignore — rather than an authorization error; reading a category's
files through a valid deep link stays open to any identity. -/
theorem C9_nonadmin_gating (admins : List Int) (st : BotState) (u : Int)
    (hr : SysReachable admins st) (hu : u ∉ admins) :
    (∀ args gen_id fault now,
        new_category admins st u args gen_id fault now =
          (st, Reply.notAuthorized)) ∧
      (∀ args,
        upload_command admins st u args = (st, Reply.notAuthorized)) ∧
      (∀ data fault,
        button_handler admins st u data fault =
          (st, Outcome.reply Reply.notAuthorized)) ∧
      (∀ faultAt date,
        finish_upload st u faultAt date = (st, Reply.noUploadInProgress)) ∧
      (∀ fi, handle_document st u fi = (st, none)) ∧
      (∀ cat c, get_category st.db cat = some c → c.files ≠ [] →
        handle_category_access admins st u cat =
          (st, Reply.sentFiles c.files)) := by
  have hnone : st.pending_uploads u = none := not_admin_no_session hr hu
  refine ⟨?_, ?_, ?_, ?_, ?_, ?_⟩
  · intro args gen_id fault now
    unfold new_category
    rw [if_neg hu]
  · intro args
    unfold upload_command
    rw [if_neg hu]
  · intro data fault
    unfold button_handler
    rw [if_neg hu]
  · intro faultAt date
    unfold finish_upload
    simp only [hnone]
  · intro fi
    unfold handle_document
    simp only [hnone]
  · intro cat c hc hcf
    unfold handle_category_access
    simp only [hc]
    rw [if_neg hu, if_neg hcf]

/-- Witness for C9 (amended) on the fresh state with admin set `[1]` and
caller 2. -/
theorem C9_witness :
    upload_command [1] initState 2 ["c"] = (initState, Reply.notAuthorized) ∧
      finish_upload initState 2 none "d" =
        (initState, Reply.noUploadInProgress) := by
  have h := C9_nonadmin_gating [1] initState 2 ⟨[], rfl⟩ (by decide)
  exact ⟨h.2.1 ["c"], h.2.2.2.1 none "d"⟩

/-- C10: in every reachable process state, every key of the in-memory
`pending_uploads` map belongs to the admin set — the two session-creating
paths (`upload_command` and the `add_` button) sit behind the admin gate
and no other handler adds a key — so the session-membership checks in
`handle_document` and `finish_upload` can only ever act for an admin. -/
theorem C10_session_keys_admin (admins : List Int) (st : BotState)
    (h : SysReachable admins st) (u : Int)
    (hu : st.pending_uploads u ≠ none) : u ∈ admins :=
  keysAdmin_reachable h u hu

/-- Witness for C10: after the reachable event `add_c` button press by
admin 7, caller 7 holds a session and is (of course) an admin. -/
theorem C10_witness : (7 : Int) ∈ ([7] : List Int) :=
  C10_session_keys_admin [7]
    (List.foldl (stepEv [7]) initState [Ev.button 7 "add_c" false])
    ⟨[Ev.button 7 "add_c" false], rfl⟩ 7 (by decide)
